import Mathlib

/-!
# Verification of the spreadsheet ingestion pipeline of `src/app.py`

This file embeds the data-loading and reconciliation logic of the
application (`load_data`, the joins performed by the `show_*` sections,
and the pivot aggregation) as executable Lean definitions.

Modelling conventions:
* the sheets are read with `dtype=str`, so a cell is either a string or
  missing (`NaN`); after numeric coercion a cell can hold a number.
  Python floats are modelled as rationals;
* a data frame is a list of column names together with rows, each row
  being the list of its (column name, cell value) pairs;
* operations that raise a Python exception (caught by the `except`
  handler of `load_data`, which reports the error and returns `None`)
  are modelled with `Except String`.
-/

/-- A cell value: a string, a numeric value, or missing (`NaN`). -/
inductive Val where
  | s (v : String)
  | n (q : ℚ)
  | na
deriving DecidableEq, Repr

/-- A data-frame row: the list of its (column name, cell value) pairs. -/
abbrev Row := List (String × Val)

/-- A data frame: ordered column names and rows. -/
structure Frame where
  cols : List String
  rows : List Row
deriving DecidableEq, Repr

/-- Python `str.upper` on one character, restricted to ASCII plus the
Spanish accented letters used by the app's headers. -/
def pyUpperChar (c : Char) : Char :=
  if c = 'á' then 'Á' else if c = 'é' then 'É' else if c = 'í' then 'Í'
  else if c = 'ó' then 'Ó' else if c = 'ú' then 'Ú' else if c = 'ñ' then 'Ñ'
  else if c = 'ü' then 'Ü' else c.toUpper

/-- Python `str.upper`. -/
def pyUpper (t : String) : String := String.mk (t.data.map pyUpperChar)

/-- Python `str.strip`. -/
def pyStrip (t : String) : String :=
  String.mk (((t.data.dropWhile Char.isWhitespace).reverse.dropWhile
    Char.isWhitespace).reverse)

/-- `startsWith hay pat`: `pat` is a prefix of `hay`. -/
def startsWith : List Char → List Char → Bool
  | _, [] => true
  | [], _ :: _ => false
  | a :: hs, b :: ps => a == b && startsWith hs ps

/-- `listContains hay pat`: `pat` occurs in `hay` as a contiguous
substring. -/
def listContains (hay pat : List Char) : Bool :=
  match hay with
  | [] => pat.isEmpty
  | _ :: t => startsWith hay pat || listContains t pat

/-- Python `pat in hay` on strings (substring test). -/
def strContains (hay pat : String) : Bool := listContains hay.data pat.data

/-- `find_column` of `app.py`: the first column whose upper-cased name
contains one of the patterns as a substring, if any. -/
def find_column (cols : List String) (patterns : List String) : Option String :=
  cols.find? (fun c => patterns.any (fun p => strContains (pyUpper c) p))

/-- Numeric value of a list of decimal digits. -/
def digitsVal (ds : List Char) : ℕ := ds.foldl (fun a d => a * 10 + (d.toNat - 48)) 0

/-- Parse an unsigned decimal body (`123`, `123.45`, `.45`, `123.`),
returning a mantissa and decimal scale — the value is
`mantissa / 10 ^ scale` — together with the unconsumed input. -/
def parseBody (cs : List Char) : Option ((ℕ × ℕ) × List Char) :=
  let ip := cs.span Char.isDigit
  match ip.2 with
  | '.' :: r2 =>
    let fp := r2.span Char.isDigit
    if ip.1.isEmpty && fp.1.isEmpty then none
    else some ((digitsVal ip.1 * 10 ^ fp.1.length + digitsVal fp.1, fp.1.length), fp.2)
  | _ => if ip.1.isEmpty then none else some ((digitsVal ip.1, 0), ip.2)

/-- Parse the digits of an exponent (with optional sign), requiring the
end of the input afterwards; returns the factor as a pair of powers of
ten (multiplier exponent, divisor exponent). -/
def parseExpNum (r : List Char) : Option (ℕ × ℕ) :=
  let sr : Bool × List Char :=
    match r with
    | '+' :: t => (true, t)
    | '-' :: t => (false, t)
    | t => (true, t)
  let ed := sr.2.span Char.isDigit
  if ed.1.isEmpty || !ed.2.isEmpty then none
  else if sr.1 then some (digitsVal ed.1, 0)
  else some (0, digitsVal ed.1)

/-- Parse an optional exponent suffix; anything else trailing makes the
whole parse fail. -/
def parseExpTail (cs : List Char) : Option (ℕ × ℕ) :=
  match cs with
  | [] => some (0, 0)
  | 'e' :: r => parseExpNum r
  | 'E' :: r => parseExpNum r
  | _ => none

/-- Model of `pd.to_numeric(value, errors='coerce')` on one string cell:
`some q` when the (stripped) string is a plain signed decimal literal
with an optional exponent, `none` (a `NaN`) otherwise.  In particular a
locale-formatted string such as `1.000.000` does not parse. -/
def parsePyNumber (t : String) : Option ℚ :=
  let cs := (pyStrip t).data
  let sb : ℤ × List Char :=
    match cs with
    | '+' :: r => (1, r)
    | '-' :: r => (-1, r)
    | r => (1, r)
  match parseBody sb.2 with
  | none => none
  | some ms =>
    match parseExpTail ms.2 with
    | none => none
    | some ab => some (mkRat (sb.1 * ((ms.1.1 * 10 ^ ab.1 : ℕ) : ℤ)) (10 ^ (ms.1.2 + ab.2)))

/-- Effect of `pd.to_numeric(col, errors='coerce').fillna(0)` on one
cell: unparseable or missing cells become `0`, never an error. -/
def coerceVal (v : Val) : Val :=
  match v with
  | Val.na => Val.n 0
  | Val.n q => Val.n q
  | Val.s t => Val.n ((parsePyNumber t).getD 0)

/-- The cell of a row at a column (`NaN` when the column is absent). -/
def cellOf (r : Row) (c : String) : Val :=
  match r.find? (fun p => p.1 == c) with
  | some p => p.2
  | none => Val.na

/-- Python dict insertion: overrides an existing binding of the key
(dict literals with a repeated key keep the last value). -/
def dictInsert (m : List (Option String × String)) (k : Option String)
    (v : String) : List (Option String × String) :=
  m.filter (fun q => q.1 != k) ++ [(k, v)]

/-- New name of a column under a rename mapping; a `None` key (an
unresolved `find_column`) never matches a real column. -/
def renameName (m : List (Option String × String)) (c : String) : String :=
  match m.find? (fun q => q.1 == some c) with
  | some q => q.2
  | none => c

/-- Rename the keys of a row. -/
def renameRow (m : List (Option String × String)) (r : Row) : Row :=
  r.map (fun p => (renameName m p.1, p.2))

/-- `DataFrame.rename(columns=m)`. -/
def renameFrame (m : List (Option String × String)) (f : Frame) : Frame :=
  Frame.mk (f.cols.map (renameName m)) (f.rows.map (renameRow m))

/-- The row-keep test of `df[df['CEDULA'].notna() & (df['CEDULA'] != '')]`:
the cell is not `NaN` and not the empty string. -/
def keepId (r : Row) : Bool :=
  !(cellOf r "CEDULA" == Val.na) && !(cellOf r "CEDULA" == Val.s "")

/-- Drop the rows whose identity key is missing or empty. -/
def filterIdFrame (f : Frame) : Frame := Frame.mk f.cols (f.rows.filter keepId)

/-- Whether a frame has a column of the given name. -/
def hasCol (f : Frame) (c : String) : Bool := f.cols.contains c

/-- `df[cs]` applied to one row. -/
def selectRow (cs : List String) (r : Row) : Row := cs.map (fun c => (c, cellOf r c))

/-- `df[cs]` column selection; `none` models the `KeyError` raised when
a requested column is absent. -/
def selectFrame (cs : List String) (f : Frame) : Option Frame :=
  if cs.all (fun c => f.cols.contains c) then
    some (Frame.mk cs (f.rows.map (selectRow cs)))
  else none

/-- Coerce to numeric every pair of a row bound to column `c`. -/
def coerceRow (c : String) (r : Row) : Row :=
  r.map (fun p => if p.1 == c then (p.1, coerceVal p.2) else p)

/-- The numeric-coercion loop of lines 137-140:
`for col in num_cols: if col in df.columns: df[col] = to_numeric(...)`. -/
def coerceCols (cs : List String) (f : Frame) : Frame :=
  Frame.mk f.cols (f.rows.map (fun r =>
    cs.foldl (fun rr c => if f.cols.contains c then coerceRow c rr else rr) r))

/-- Identity patterns of the INFORMACION sheet (line 91). -/
def empIdPatterns : List String := ["CÉDULA", "ID", "NÚMERO DE CONTACTO"]

/-- Name patterns of the INFORMACION sheet (line 92). -/
def empNamePatterns : List String := ["NOMBRE", "TÉCNICO", "EMPLEADO"]

/-- Phone patterns of the INFORMACION sheet (line 93). -/
def empPhonePatterns : List String := ["TELÉFONO", "CONTACTO"]

/-- Lines 90-104 of `app.py`: normalize the INFORMACION sheet. -/
def processEmpleados (f : Frame) : Except String Frame :=
  match find_column f.cols empIdPatterns, find_column f.cols empNamePatterns with
  | some idc, some nmc =>
    let m0 := dictInsert (dictInsert [] (some idc) "CEDULA") (some nmc) "NOMBRE"
    let m :=
      match find_column f.cols empPhonePatterns with
      | some ph => dictInsert m0 (some ph) "TELEFONO"
      | none => m0
    let f1 := renameFrame m f
    if hasCol f1 "CEDULA" then Except.ok (filterIdFrame f1)
    else Except.error "Error critico al procesar el archivo: KeyError CEDULA"
  | _, _ => Except.error "No se pudieron encontrar Cedula o Nombre en la hoja INFORMACION."

/-- Identity patterns of the COMENTARIOS sheet (line 107). -/
def comIdPatterns : List String := ["CÉDULA", "ID"]

/-- Comment-text patterns of the COMENTARIOS sheet (line 108). -/
def comTextPatterns : List String := ["COMENTARIOS", "OBSERVACIONES"]

/-- Lines 106-113 of `app.py`: normalize the COMENTARIOS sheet.  A
`KeyError` on a missing column propagates to the handler of `load_data`,
which reports the reason and returns `None`. -/
def processComentarios (f : Frame) : Except String Frame :=
  let m := dictInsert (dictInsert [] (find_column f.cols comIdPatterns) "CEDULA")
    (find_column f.cols comTextPatterns) "COMENTARIOS"
  let f1 := renameFrame m f
  if hasCol f1 "CEDULA" then
    match selectFrame ["CEDULA", "COMENTARIOS"] (filterIdFrame f1) with
    | some f2 => Except.ok f2
    | none => Except.error "Error critico al procesar el archivo: KeyError COMENTARIOS"
  else Except.error "Error critico al procesar el archivo: KeyError CEDULA"

/-- The canonical payroll column names with their header patterns
(lines 121-130 of `app.py`). -/
def nomNumPatterns : List (String × List String) :=
  [("SALARIO_BASE", ["SALARIO BASE"]),
   ("CONTRIBUCION_EMPR", ["CONTRIBUCIONES EMPLEADOR", "CONTRIBUCIONES DEL EMPLEADOR"]),
   ("CONTRIBUCION_EMPL", ["CONTRIBUCIONES EMPLEADO", "CONTRIBUCIONES DEL EMPLEADO"]),
   ("APORTE_ARL", ["APORTE ARL"]),
   ("SALARIO_REAL", ["SALARIO REAL"]),
   ("SALARIO_BRUTO", ["SALARIO BRUTO"]),
   ("HORAS_EXTRA_NOM", ["HORAS EXTRA"]),
   ("TOTAL_PAGAR_NOM", ["TOTAL A PAGAR AL EMPLEADO"])]

/-- The `num_cols` list of lines 134-135. -/
def numColsList : List String := nomNumPatterns.map Prod.fst

/-- Lines 116-117: resolve and rename the payroll identity column. -/
def nomIdRenamed (f : Frame) : Frame :=
  renameFrame (dictInsert [] (find_column f.cols ["CÉDULA", "ID"]) "CEDULA") f

/-- Line 118: drop payroll rows without an identity key. -/
def nomFiltered (f : Frame) : Frame := filterIdFrame (nomIdRenamed f)

/-- The dict literal `rename_map_nom` of lines 121-130 (repeated keys,
including `None` for unresolved columns, keep the last value). -/
def buildNomMap (cols : List String) : List (Option String × String) :=
  nomNumPatterns.foldl (fun acc e => dictInsert acc (find_column cols e.2) e.1) []

/-- Line 132: rename the resolved payroll columns to canonical names. -/
def nomRenamed (f : Frame) : Frame :=
  renameFrame (buildNomMap (nomFiltered f).cols) (nomFiltered f)

/-- Lines 115-142 of `app.py`: normalize the NOMINA sheet.  The
`KeyError` of line 118 (no `CEDULA` column after renaming) aborts
`load_data` through its exception handler. -/
def processNomina (f : Frame) : Except String Frame :=
  if hasCol (nomIdRenamed f) "CEDULA" then
    Except.ok (coerceCols numColsList (nomRenamed f))
  else Except.error "Error critico al procesar el archivo: KeyError CEDULA"

/-- Rows of an indexed table whose `CEDULA` equals `k`; as in pandas, a
missing key (`NaN`) never matches. -/
def matchRows (rows : List Row) (k : Val) : List Row :=
  if k == Val.na then [] else rows.filter (fun rr => cellOf rr "CEDULA" == k)

/-- `left.join(right[extra], how='left')` on the `CEDULA` index: one
output row per matching right row, or a `NaN`-filled row when none. -/
def joinRows (left right : List Row) (extra : List String) : List Row :=
  left.flatMap (fun lr =>
    match matchRows right (cellOf lr "CEDULA") with
    | [] => [lr ++ extra.map (fun c => (c, Val.na))]
    | ms => ms.map (fun rr => lr ++ extra.map (fun c => (c, cellOf rr c))))

/-- `df[c].fillna(0)` on one row. -/
def fillNaZero (c : String) (r : Row) : Row :=
  r.map (fun p => if p.1 == c && p.2 == Val.na then (p.1, Val.n 0) else p)

/-- Lines 144-148 of `app.py`: enrich the comments table with the two
payroll columns (left join, unmatched rows zero-filled).  Selecting the
two columns raises a `KeyError` when either is absent from the payroll
table, aborting `load_data`. -/
def enrichComentarios (com nomF : Frame) : Except String Frame :=
  if hasCol nomF "HORAS_EXTRA_NOM" && hasCol nomF "TOTAL_PAGAR_NOM" then
    Except.ok (Frame.mk (com.cols ++ ["HORAS_EXTRA_NOM", "TOTAL_PAGAR_NOM"])
      (((joinRows com.rows nomF.rows ["HORAS_EXTRA_NOM", "TOTAL_PAGAR_NOM"]).map
        (fillNaZero "HORAS_EXTRA_NOM")).map (fillNaZero "TOTAL_PAGAR_NOM")))
  else Except.error "Error critico al procesar el archivo: KeyError en nomina"

/-- Line 86 of `app.py`: tag a monthly sheet with its stripped name. -/
def addMes (f : Frame) (sheetName : String) : Frame :=
  Frame.mk (f.cols ++ ["MES"])
    (f.rows.map (fun r => r ++ [("MES", Val.s (pyStrip sheetName))]))

/-- Line 162: an overtime/surcharge header marker. -/
def isClassHeader (c : String) : Bool :=
  strContains (pyUpper c) "HORA EXTRA" || strContains (pyUpper c) "RECARGO"

/-- Lines 160-163: the columns at position at least 2 whose header is an
overtime/surcharge marker. -/
def classificationCols (cols : List String) : List String :=
  (cols.enum.filter (fun p => decide (1 < p.1) && isClassHeader p.2)).map Prod.snd

/-- `DataFrame.melt` (lines 169-174): one output row per classification
column and input row, in that nesting order. -/
def meltMonth (idc : String) (ccols : List String) (f : Frame) : Frame :=
  Frame.mk [idc, "MES", "CLASIFICACION", "HORAS"]
    (ccols.flatMap (fun c => f.rows.map (fun r =>
      [(idc, cellOf r idc), ("MES", cellOf r "MES"),
       ("CLASIFICACION", Val.s c), ("HORAS", cellOf r c)])))

/-- The row-keep test of `df_melted[df_melted['HORAS'] > 0]` (line 178). -/
def horasPos (r : Row) : Bool :=
  match cellOf r "HORAS" with
  | Val.n q => decide (0 < q)
  | _ => false

/-- Lines 154-179 of `app.py`: process one monthly sheet; `none` means
the sheet is skipped (no identity column, or no classification column). -/
def processMonth (f : Frame) : Option Frame :=
  match find_column f.cols ["CÉDULA", "ID"] with
  | none => none
  | some idc =>
    match classificationCols f.cols with
    | [] => none
    | ccols =>
      let f1 := renameFrame (dictInsert [] (some idc) "CEDULA") (meltMonth idc ccols f)
      let f2 := Frame.mk f1.cols (f1.rows.map (coerceRow "HORAS"))
      some (Frame.mk f2.cols (f2.rows.filter horasPos))

/-- Lines 150-183 of `app.py`: process every monthly sheet, concatenate,
and drop rows without an identity key. -/
def processHorasExtras (months : List Frame) : Frame :=
  match months.filterMap processMonth with
  | [] => Frame.mk [] []
  | g :: gs => Frame.mk g.cols (((g :: gs).flatMap Frame.rows).filter keepId)

/-- `df[c].fillna(other column)` on one row. -/
def fillNaWith (c : String) (v : Val) (r : Row) : Row :=
  r.map (fun p => if p.1 == c && p.2 == Val.na then (p.1, v) else p)

/-- Lines 301-302 of `app.py`: join employee names onto overtime rows,
falling back to the raw `CEDULA` when no employee matches. -/
def horasConNombre (he emp : List Row) : List Row :=
  (joinRows he emp ["NOMBRE"]).map (fun r => fillNaWith "NOMBRE" (cellOf r "CEDULA") r)

/-- Line 256 of `app.py`: join names and phones onto comment rows.
No fallback is applied afterwards. -/
def comentariosConNombre (com emp : List Row) : List Row :=
  joinRows com emp ["NOMBRE", "TELEFONO"]

/-- `Series.get(key, default)` as used at line 282: the default applies
only when the key is absent, not when its value is `NaN`. -/
def seriesGet (r : Row) (c : String) (d : Val) : Val :=
  match r.find? (fun p => p.1 == c) with
  | some p => p.2
  | none => d

/-- The name displayed on a comment card (line 282). -/
def displayedCommentName (r : Row) : Val := seriesGet r "NOMBRE" (Val.s "N/A")

/-- `REQUIRED_SHEETS_MAPPING` (lines 35-39 of `app.py`). -/
def requiredSheets : List (String × String) :=
  [("hoja 1", "INFORMACION"), ("hoja 3", "COMENTARIOS"), ("hoja 4", "NOMINA")]

/-- The first workbook sheet whose trimmed, upper-cased name equals the
canonical name (lines 59, 65). -/
def findSheet (sheets : List String) (canon : String) : Option String :=
  sheets.find? (fun t => pyUpper (pyStrip t) == canon)

/-- The fatal message of line 67 naming the missing sheet. -/
def missingMsg (key canon : String) : String :=
  "No se encontró la hoja requerida: " ++ canon ++ (" (" ++ key ++ ").")

/-- The resolution loop of lines 62-68 over a mapping list. -/
def classifyGo (sheets : List String) :
    List (String × String) → Except String (List (String × String))
  | [] => Except.ok []
  | e :: rest =>
    match findSheet sheets e.2 with
    | none => Except.error (missingMsg e.1 e.2)
    | some orig => (classifyGo sheets rest).map (fun l => (e.1, orig) :: l)

/-- Lines 59-68 of `app.py`: locate the three required sheets, or fail
naming the first missing one (`load_data` then returns no model). -/
def classifySheets (sheets : List String) : Except String (List (String × String)) :=
  classifyGo sheets requiredSheets

/-- The first entry of a mapping whose canonical sheet name is absent
from the workbook (specification device for the error case). -/
def firstMissing (sheets : List String) :
    List (String × String) → Option (String × String)
  | [] => none
  | e :: rest =>
    if (findSheet sheets e.2).isNone then some e else firstMissing sheets rest

/-- The `NOMBRE` cell of a pivot row. -/
def nameOf (r : Row) : Val := cellOf r "NOMBRE"

/-- The `CLASIFICACION` cell of a pivot row. -/
def classOf (r : Row) : Val := cellOf r "CLASIFICACION"

/-- The `HORAS` cell of a row as a number. -/
def horasOf (r : Row) : ℚ :=
  match cellOf r "HORAS" with
  | Val.n q => q
  | _ => 0

/-- Sum of the hours of a list of overtime rows. -/
def sumHoras (rows : List Row) : ℚ := (rows.map horasOf).sum

/-- One inner cell of the pivot of lines 367-376: the summed hours of
the rows with the given name and classification. -/
def pivotCell (rows : List Row) (nm cl : Val) : ℚ :=
  sumHoras ((rows.filter (fun r => nameOf r == nm)).filter (fun r => classOf r == cl))

/-- The `TOTAL GENERAL` column cell of a pivot row: pandas computes the
margin by aggregating all data of that row. -/
def pivotRowTotal (rows : List Row) (nm : Val) : ℚ :=
  sumHoras (rows.filter (fun r => nameOf r == nm))

/-- The bottom-right `TOTAL GENERAL` cell: pandas aggregates the whole
data set. -/
def pivotGrandTotal (rows : List Row) : ℚ := sumHoras rows

/-- The distinct classification labels of the pivot columns. -/
def pivotClasses (rows : List Row) : List Val := (rows.map classOf).dedup

/-- The distinct names of the pivot rows. -/
def pivotNames (rows : List Row) : List Val := (rows.map nameOf).dedup

/-- The identity key of a row is neither missing nor the empty string. -/
def idOk (r : Row) : Prop :=
  cellOf r "CEDULA" ≠ Val.na ∧ cellOf r "CEDULA" ≠ Val.s ""

/-- A numeric cell. -/
def isNumVal (v : Val) : Bool :=
  match v with
  | Val.n _ => true
  | _ => false

/-- The rows of a frame carry exactly the frame's columns. -/
def wellFormed (f : Frame) : Prop := ∀ r ∈ f.rows, r.map Prod.fst = f.cols

/-! ## Basic lemmas about rows and frame operations -/

theorem keepId_spec {r : Row} (h : keepId r = true) : idOk r := by
  simp only [keepId, Bool.and_eq_true, Bool.not_eq_true', beq_eq_false_iff_ne] at h
  exact h

theorem cellOf_append_right {r ex : Row} {c : String}
    (hex : ∀ p ∈ ex, p.1 ≠ c) : cellOf (r ++ ex) c = cellOf r c := by
  unfold cellOf
  rw [List.find?_append]
  have hnone : ex.find? (fun p => p.1 == c) = none := by
    rw [List.find?_eq_none]
    intro p hp
    simp [hex p hp]
  rw [hnone]
  cases r.find? (fun p => p.1 == c) <;> rfl

theorem cellOf_map_pairs (g : String × Val → String × Val) (c : String)
    (hk : ∀ p, (g p).1 = p.1) (hv : ∀ p, p.1 = c → (g p).2 = p.2) :
    ∀ r : Row, cellOf (r.map g) c = cellOf r c := by
  intro r
  induction r with
  | nil => rfl
  | cons p t ih =>
    by_cases h : p.1 = c
    · unfold cellOf
      rw [List.map_cons, List.find?_cons_of_pos, List.find?_cons_of_pos]
      · exact hv p h
      · simp [h]
      · simp [hk, h]
    · unfold cellOf
      rw [List.map_cons, List.find?_cons_of_neg, List.find?_cons_of_neg]
      · exact ih
      · simp [h]
      · simp [hk, h]

theorem keys_map_pairs (g : String × Val → String × Val)
    (hk : ∀ p, (g p).1 = p.1) (r : Row) :
    (r.map g).map Prod.fst = r.map Prod.fst := by
  induction r with
  | nil => rfl
  | cons p t ih => simp [hk, ih]

theorem cellOf_fillNaZero_ne {r : Row} {c c' : String} (h : c' ≠ c) :
    cellOf (fillNaZero c r) c' = cellOf r c' := by
  refine cellOf_map_pairs _ c' ?_ ?_ r
  · intro p
    by_cases hp : (p.1 == c && p.2 == Val.na) = true <;> simp [hp]
  · intro p hp
    have : (p.1 == c) = false := by simp [hp, h]
    simp [this]

theorem cellOf_fillNaWith_ne {r : Row} {c c' : String} {v : Val} (h : c' ≠ c) :
    cellOf (fillNaWith c v r) c' = cellOf r c' := by
  refine cellOf_map_pairs _ c' ?_ ?_ r
  · intro p
    by_cases hp : (p.1 == c && p.2 == Val.na) = true <;> simp [hp]
  · intro p hp
    have : (p.1 == c) = false := by simp [hp, h]
    simp [this]

theorem cellOf_coerceRow_ne {r : Row} {c c' : String} (h : c' ≠ c) :
    cellOf (coerceRow c r) c' = cellOf r c' := by
  refine cellOf_map_pairs _ c' ?_ ?_ r
  · intro p
    by_cases hp : p.1 = c <;> simp [hp]
  · intro p hp
    have : (p.1 == c) = false := by simp [hp, h]
    simp [this]

theorem keys_coerceRow (c : String) (r : Row) :
    (coerceRow c r).map Prod.fst = r.map Prod.fst := by
  refine keys_map_pairs _ ?_ r
  intro p
  by_cases hp : p.1 = c <;> simp [hp]

theorem cellOf_coerceRow_mem {r : Row} {c : String}
    (h : c ∈ r.map Prod.fst) : cellOf (coerceRow c r) c = coerceVal (cellOf r c) := by
  induction r with
  | nil => cases h
  | cons p t ih =>
    by_cases hp : p.1 = c
    · unfold cellOf coerceRow
      rw [List.map_cons, List.find?_cons_of_pos, List.find?_cons_of_pos]
      · simp [hp]
      · simp [hp]
      · simp [hp]
    · have h' : c ∈ t.map Prod.fst := by
        rw [List.map_cons, List.mem_cons] at h
        rcases h with h | h
        · exact absurd h.symm hp
        · exact h
      have := ih h'
      unfold cellOf coerceRow at *
      rw [List.map_cons, List.find?_cons_of_neg, List.find?_cons_of_neg]
      · simpa [hp] using this
      · simp [hp]
      · simp [hp]

theorem coerceVal_isNum (v : Val) : isNumVal (coerceVal v) = true := by
  cases v <;> rfl

theorem renameName_eq_self {m : List (Option String × String)} {c : String}
    (h : ∀ q ∈ m, q.1 ≠ some c) : renameName m c = c := by
  unfold renameName
  have : m.find? (fun q => q.1 == some c) = none := by
    rw [List.find?_eq_none]
    intro q hq
    simp [h q hq]
  rw [this]

theorem renameName_ne {m : List (Option String × String)} {c x : String}
    (hx : x ≠ c) (h : ∀ q ∈ m, q.2 ≠ c) : renameName m x ≠ c := by
  unfold renameName
  cases hf : m.find? (fun q => q.1 == some x) with
  | none => exact hx
  | some q => exact h q (List.mem_of_find?_eq_some hf)

theorem cellOf_renameRow {m : List (Option String × String)} {c : String}
    (hkey : ∀ q ∈ m, q.1 ≠ some c) (hval : ∀ q ∈ m, q.2 ≠ c) :
    ∀ r : Row, cellOf (renameRow m r) c = cellOf r c := by
  intro r
  induction r with
  | nil => rfl
  | cons p t ih =>
    by_cases hp : p.1 = c
    · unfold cellOf renameRow
      rw [List.map_cons, List.find?_cons_of_pos, List.find?_cons_of_pos]
      · simp [hp]
      · simp [hp, renameName_eq_self hkey]
    · unfold cellOf renameRow at *
      rw [List.map_cons, List.find?_cons_of_neg, List.find?_cons_of_neg]
      · exact ih
      · simp [hp]
      · simp [renameName_ne hp hval]

theorem keys_renameRow (m : List (Option String × String)) (r : Row) :
    (renameRow m r).map Prod.fst = (r.map Prod.fst).map (renameName m) := by
  simp [renameRow, List.map_map]

theorem find_column_any {cols ps : List String} {c : String}
    (h : find_column cols ps = some c) :
    ps.any (fun p => strContains (pyUpper c) p) = true := by
  unfold find_column at h
  have := List.find?_some h
  simpa using this

theorem find_column_mem {cols ps : List String} {c : String}
    (h : find_column cols ps = some c) : c ∈ cols := by
  unfold find_column at h
  exact List.mem_of_find?_eq_some h

theorem find_column_none {cols ps : List String}
    (h : find_column cols ps = none) :
    ∀ c ∈ cols, ps.any (fun p => strContains (pyUpper c) p) = false := by
  intro c hc
  have := (List.find?_eq_none.1 h) c hc
  simpa using this

theorem mem_dictInsert {m : List (Option String × String)}
    {k : Option String} {v : String} {q : Option String × String}
    (h : q ∈ dictInsert m k v) : q ∈ m ∨ q = (k, v) := by
  unfold dictInsert at h
  rw [List.mem_append] at h
  rcases h with h | h
  · exact Or.inl (List.mem_of_mem_filter h)
  · simp at h
    exact Or.inr h

theorem foldlNomMap_mem (cols : List String) :
    ∀ (es : List (String × List String)) (acc : List (Option String × String))
      (q : Option String × String),
      q ∈ es.foldl (fun a e => dictInsert a (find_column cols e.2) e.1) acc →
      q ∈ acc ∨ ∃ e ∈ es, q = (find_column cols e.2, e.1) := by
  intro es
  induction es with
  | nil => intro acc q h; exact Or.inl h
  | cons e t ih =>
    intro acc q h
    rcases ih (dictInsert acc (find_column cols e.2) e.1) q h with h1 | h1
    · rcases mem_dictInsert h1 with h2 | h2
      · exact Or.inl h2
      · exact Or.inr ⟨e, List.mem_cons_self e t, h2⟩
    · rcases h1 with ⟨e2, he2, hq⟩
      exact Or.inr ⟨e2, List.mem_cons_of_mem e he2, hq⟩

theorem buildNomMap_mem {cols : List String} {q : Option String × String}
    (h : q ∈ buildNomMap cols) :
    ∃ e ∈ nomNumPatterns, q = (find_column cols e.2, e.1) := by
  unfold buildNomMap at h
  rcases foldlNomMap_mem cols nomNumPatterns [] q h with h1 | h1
  · cases h1
  · exact h1

theorem nomNumPatterns_fst_ne : ∀ e ∈ nomNumPatterns, e.1 ≠ "CEDULA" := by decide

theorem nomNumPatterns_no_cedula :
    ∀ e ∈ nomNumPatterns,
      (e.2.any (fun p => strContains (pyUpper "CEDULA") p)) = false := by decide

theorem buildNomMap_avoid {cols : List String} {q : Option String × String}
    (h : q ∈ buildNomMap cols) : q.1 ≠ some "CEDULA" ∧ q.2 ≠ "CEDULA" := by
  rcases buildNomMap_mem h with ⟨e, he, hq⟩
  subst hq
  constructor
  · intro hc
    have h1 := find_column_any hc
    have h2 := nomNumPatterns_no_cedula e he
    rw [h2] at h1
    cases h1
  · exact nomNumPatterns_fst_ne e he

theorem cellOf_cons_pos {p : String × Val} {t : Row} {c : String}
    (h : p.1 = c) : cellOf (p :: t) c = p.2 := by
  unfold cellOf
  rw [List.find?_cons_of_pos]
  simp [h]

theorem cellOf_cons_neg {p : String × Val} {t : Row} {c : String}
    (h : p.1 ≠ c) : cellOf (p :: t) c = cellOf t c := by
  unfold cellOf
  rw [List.find?_cons_of_neg]
  simp [h]

theorem cellOf_selectRow {r : Row} {cs : List String} {c : String}
    (h : c ∈ cs) : cellOf (selectRow cs r) c = cellOf r c := by
  induction cs with
  | nil => cases h
  | cons c0 t ih =>
    by_cases hc : c0 = c
    · rw [selectRow, List.map_cons, cellOf_cons_pos hc]
      rw [hc]
    · have h2 : c ∈ t := by
        rcases List.mem_cons.1 h with h1 | h1
        · exact absurd h1.symm hc
        · exact h1
      rw [selectRow, List.map_cons, cellOf_cons_neg hc]
      exact ih h2

theorem keys_coerceStep (cols : List String) (c0 : String) (r : Row) :
    ((if cols.contains c0 then coerceRow c0 r else r).map Prod.fst) = r.map Prod.fst := by
  by_cases hc : cols.contains c0 = true
  · rw [if_pos hc]
    exact keys_coerceRow c0 r
  · rw [if_neg hc]

theorem coerceFold_ne (cols : List String) (x : String) :
    ∀ (cs : List String) (r : Row), (∀ c ∈ cs, c ≠ x) →
      cellOf (cs.foldl (fun rr c => if cols.contains c then coerceRow c rr else rr) r) x
        = cellOf r x := by
  intro cs
  induction cs with
  | nil => intro r _; rfl
  | cons c0 t ih =>
    intro r h
    rw [List.foldl_cons]
    have hstep : cellOf (if cols.contains c0 then coerceRow c0 r else r) x = cellOf r x := by
      by_cases hc : cols.contains c0 = true
      · rw [if_pos hc]
        exact cellOf_coerceRow_ne (Ne.symm (h c0 (List.mem_cons_self c0 t)))
      · rw [if_neg hc]
    rw [ih _ (fun c hc => h c (List.mem_cons_of_mem c0 hc)), hstep]

theorem coerceFold_keepNum (cols : List String) (x : String) :
    ∀ (cs : List String) (r : Row), isNumVal (cellOf r x) = true →
      isNumVal (cellOf
        (cs.foldl (fun rr c => if cols.contains c then coerceRow c rr else rr) r) x) = true := by
  intro cs
  induction cs with
  | nil => intro r h; exact h
  | cons c0 t ih =>
    intro r h
    rw [List.foldl_cons]
    apply ih
    by_cases hc : cols.contains c0 = true
    · rw [if_pos hc]
      by_cases hx : x = c0
      · subst hx
        have hkey : x ∈ r.map Prod.fst := by
          by_contra hk
          have hnone : r.find? (fun p => p.1 == x) = none := by
            rw [List.find?_eq_none]
            intro p hp hpx
            exact hk (List.mem_map.2 ⟨p, hp, by simpa using hpx⟩)
          unfold cellOf at h
          rw [hnone] at h
          simp [isNumVal] at h
        rw [cellOf_coerceRow_mem hkey]
        exact coerceVal_isNum _
      · rw [cellOf_coerceRow_ne hx]
        exact h
    · rw [if_neg hc]
      exact h

theorem coerceFold_num (cols : List String) (x : String) :
    ∀ (cs : List String) (r : Row), x ∈ cs → cols.contains x = true →
      x ∈ r.map Prod.fst →
      isNumVal (cellOf
        (cs.foldl (fun rr c => if cols.contains c then coerceRow c rr else rr) r) x) = true := by
  intro cs
  induction cs with
  | nil => intro r h; cases h
  | cons c0 t ih =>
    intro r hmem hcont hkey
    rw [List.foldl_cons]
    rcases List.mem_cons.1 hmem with h0 | h0
    · subst h0
      apply coerceFold_keepNum
      rw [if_pos hcont, cellOf_coerceRow_mem hkey]
      exact coerceVal_isNum _
    · have hkey2 : x ∈ ((if cols.contains c0 then coerceRow c0 r else r).map Prod.fst) := by
        rw [keys_coerceStep]
        exact hkey
      exact ih _ h0 hcont hkey2

/-! ## Lemmas about joins and fills -/

theorem cellOf_append_left_none {a b : Row} {c : String}
    (h : ∀ p ∈ a, p.1 ≠ c) : cellOf (a ++ b) c = cellOf b c := by
  unfold cellOf
  rw [List.find?_append]
  have hnone : a.find? (fun p => p.1 == c) = none := by
    rw [List.find?_eq_none]
    intro p hp
    simp [h p hp]
  rw [hnone, Option.none_or]

theorem cellOf_append_exmap {lr : Row} {ex : List String} {g : String → Val}
    {c : String} (hex : ∀ x ∈ ex, x ≠ c) :
    cellOf (lr ++ ex.map (fun x => (x, g x))) c = cellOf lr c := by
  apply cellOf_append_right
  intro p hp
  rcases List.mem_map.1 hp with ⟨x, hx, he⟩
  rw [← he]
  exact hex x hx

theorem joinRows_decomp {left right : List Row} {ex : List String} {r : Row}
    (h : r ∈ joinRows left right ex) :
    ∃ lr ∈ left,
      (matchRows right (cellOf lr "CEDULA") = []
          ∧ r = lr ++ ex.map (fun c => (c, Val.na)))
      ∨ (∃ rr ∈ matchRows right (cellOf lr "CEDULA"),
          r = lr ++ ex.map (fun c => (c, cellOf rr c))) := by
  unfold joinRows at h
  rcases List.mem_flatMap.1 h with ⟨lr, hlr, hr⟩
  cases hm : matchRows right (cellOf lr "CEDULA") with
  | nil =>
    rw [hm] at hr
    simp only [List.mem_singleton] at hr
    exact ⟨lr, hlr, Or.inl ⟨hm, hr⟩⟩
  | cons m ms =>
    rw [hm] at hr
    rcases List.mem_map.1 hr with ⟨rr, hrr, hre⟩
    exact ⟨lr, hlr, Or.inr ⟨rr, hm ▸ hrr, hre.symm⟩⟩

theorem keepId_congr {r r2 : Row}
    (h : cellOf r "CEDULA" = cellOf r2 "CEDULA") : keepId r = keepId r2 := by
  unfold keepId
  rw [h]

theorem cellOf_fillNaWith_hit {lr : Row} {c : String} {v : Val}
    (h : ∀ p ∈ lr, p.1 ≠ c) :
    cellOf (fillNaWith c v (lr ++ [(c, Val.na)])) c = v := by
  unfold fillNaWith
  rw [List.map_append]
  rw [cellOf_append_left_none]
  · simp [cellOf]
  · intro p hp
    rcases List.mem_map.1 hp with ⟨q, hq, he⟩
    have hq1 : q.1 ≠ c := h q hq
    rw [← he]
    by_cases hcond : (q.1 == c && q.2 == Val.na) = true
    · rw [Bool.and_eq_true] at hcond
      exact absurd (by simpa using hcond.1) hq1
    · simp [hcond]
      exact hq1

/-! ## Sum lemmas for the pivot -/

theorem sum_map_filter_partition (f : Row → ℚ) (p : Row → Bool) (l : List Row) :
    ((l.filter p).map f).sum + ((l.filter (fun x => !p x)).map f).sum
      = (l.map f).sum := by
  induction l with
  | nil => simp
  | cons a t ih =>
    by_cases h : p a = true
    · rw [List.filter_cons_of_pos h, List.filter_cons_of_neg (by simp [h]),
        List.map_cons, List.sum_cons, List.map_cons, List.sum_cons, add_assoc, ih]
    · rw [List.filter_cons_of_neg h, List.filter_cons_of_pos (by simp [h]),
        List.map_cons, List.sum_cons, List.map_cons, List.sum_cons, ← ih]
      ring

theorem sum_fiberwise (f : Row → ℚ) (key : Row → Val) :
    ∀ (ks : List Val) (l : List Row), ks.Nodup → (∀ x ∈ l, key x ∈ ks) →
      (ks.map (fun b => ((l.filter (fun x => key x == b)).map f).sum)).sum
        = (l.map f).sum := by
  intro ks
  induction ks with
  | nil =>
    intro l _ hcov
    have hl : l = [] :=
      List.eq_nil_iff_forall_not_mem.2 (fun x hx => (List.not_mem_nil (key x)) (hcov x hx))
    subst hl
    simp
  | cons b ks ih =>
    intro l hnd hcov
    rw [List.map_cons, List.sum_cons]
    have hfil : ∀ b2, b2 ≠ b →
        (l.filter (fun x => !(key x == b))).filter (fun x => key x == b2)
          = l.filter (fun x => key x == b2) := by
      intro b2 hbne
      rw [List.filter_filter]
      apply List.filter_congr
      intro x _
      by_cases hk : key x = b2
      · simp [hk, hbne]
      · simp [hk]
    have hcong : (ks.map (fun b2 => ((l.filter (fun x => key x == b2)).map f).sum)).sum
        = (ks.map (fun b2 =>
            (((l.filter (fun x => !(key x == b))).filter (fun x => key x == b2)).map f).sum)).sum := by
      apply congrArg
      apply List.map_congr_left
      intro b2 hb2
      have hbne : b2 ≠ b := by
        intro he
        subst he
        exact (List.nodup_cons.1 hnd).1 hb2
      rw [hfil b2 hbne]
    have hih : (ks.map (fun b2 =>
        (((l.filter (fun x => !(key x == b))).filter (fun x => key x == b2)).map f).sum)).sum
        = ((l.filter (fun x => !(key x == b))).map f).sum := by
      apply ih
      · exact (List.nodup_cons.1 hnd).2
      · intro x hx
        rcases List.mem_filter.1 hx with ⟨hxl, hxb⟩
        have := hcov x hxl
        rcases List.mem_cons.1 this with h1 | h1
        · rw [h1] at hxb
          simp at hxb
        · exact h1
    rw [hcong, hih, sum_map_filter_partition f (fun x => key x == b) l]

/-! ## Length of a left join -/

theorem joinRows_length (left right : List Row) (ex : List String) :
    (joinRows left right ex).length
      = (left.map (fun lr => max (matchRows right (cellOf lr "CEDULA")).length 1)).sum := by
  unfold joinRows
  rw [List.flatMap_def, List.length_flatten, List.map_map]
  apply congrArg
  apply List.map_congr_left
  intro lr _
  simp only [Function.comp]
  cases hm : matchRows right (cellOf lr "CEDULA") with
  | nil => simp
  | cons m ms =>
    simp only [List.length_map, List.length_cons]
    omega

theorem length_le_sum_map {α : Type} (l : List α) (F : α → ℕ)
    (h : ∀ x, 1 ≤ F x) : l.length ≤ (l.map F).sum := by
  induction l with
  | nil => simp
  | cons a t ih =>
    rw [List.map_cons, List.sum_cons, List.length_cons]
    have := h a
    omega

/-! ## Lemmas about sheet classification -/

theorem startsWith_self_append : ∀ (pat rest : List Char),
    startsWith (pat ++ rest) pat = true := by
  intro pat
  induction pat with
  | nil => intro rest; cases rest <;> rfl
  | cons a t ih => intro rest; simp [startsWith, ih]

theorem listContains_mid : ∀ (pre pat post : List Char),
    listContains (pre ++ (pat ++ post)) pat = true := by
  intro pre
  induction pre with
  | nil =>
    intro pat post
    cases pat with
    | nil =>
      cases post with
      | nil => rfl
      | cons b t => simp [listContains, startsWith]
    | cons a t =>
      show (startsWith ((a :: t) ++ post) (a :: t)
        || listContains (t ++ post) (a :: t)) = true
      rw [startsWith_self_append]
      rfl
  | cons a pre ih =>
    intro pat post
    show (startsWith ((a :: pre) ++ (pat ++ post)) pat
      || listContains (pre ++ (pat ++ post)) pat) = true
    rw [ih pat post, Bool.or_true]

theorem strContains_sandwich (pre pat post : String) :
    strContains ((pre ++ pat) ++ post) pat = true := by
  unfold strContains
  rw [String.data_append, String.data_append, List.append_assoc]
  exact listContains_mid pre.data pat.data post.data

theorem classifyGo_error (sheets : List String) :
    ∀ (m : List (String × String)) (k c : String),
      firstMissing sheets m = some (k, c) →
      findSheet sheets c = none ∧ classifyGo sheets m = Except.error (missingMsg k c) := by
  intro m
  induction m with
  | nil => intro k c h; cases h
  | cons e t ih =>
    rcases e with ⟨e1, e2⟩
    intro k c h
    unfold firstMissing at h
    by_cases he : ((findSheet sheets e2).isNone : Bool) = true
    · rw [if_pos he] at h
      injection h with h
      injection h with h1 h2
      subst h1
      subst h2
      have hnone : findSheet sheets e2 = none := Option.isNone_iff_eq_none.1 he
      refine ⟨hnone, ?_⟩
      unfold classifyGo
      rw [hnone]
    · rw [if_neg he] at h
      have hres := ih k c h
      refine ⟨hres.1, ?_⟩
      unfold classifyGo
      cases ho : findSheet sheets e2 with
      | none => rw [ho] at he; simp at he
      | some o =>
        show (classifyGo sheets t).map (fun l => (e1, o) :: l) = Except.error (missingMsg k c)
        rw [hres.2]
        rfl

/-! ## Characterization of the pipeline stages -/

theorem processEmpleados_keep {f out : Frame}
    (h : processEmpleados f = Except.ok out) :
    ∀ r ∈ out.rows, keepId r = true := by
  simp only [processEmpleados] at h
  split at h
  · split at h
    · injection h with h
      subst h
      intro r hr
      exact (List.mem_filter.1 hr).2
    · exact Except.noConfusion h
  · exact Except.noConfusion h

theorem processComentarios_keep {f out : Frame}
    (h : processComentarios f = Except.ok out) :
    ∀ r ∈ out.rows, keepId r = true := by
  simp only [processComentarios] at h
  split at h
  · cases hsel : selectFrame ["CEDULA", "COMENTARIOS"]
        (filterIdFrame (renameFrame
          (dictInsert (dictInsert [] (find_column f.cols comIdPatterns) "CEDULA")
            (find_column f.cols comTextPatterns) "COMENTARIOS") f)) with
    | none =>
      rw [hsel] at h
      exact Except.noConfusion h
    | some f2 =>
      rw [hsel] at h
      injection h with h
      subst h
      simp only [selectFrame] at hsel
      split at hsel
      · injection hsel with hsel
        rw [← hsel]
        intro r hr
        rcases List.mem_map.1 hr with ⟨r0, hr0, he0⟩
        have hk0 : keepId r0 = true := (List.mem_filter.1 hr0).2
        rw [← he0, keepId_congr (cellOf_selectRow (by decide))]
        exact hk0
      · exact Option.noConfusion hsel
  · exact Except.noConfusion h

theorem processNomina_shape {f out : Frame}
    (h : processNomina f = Except.ok out) :
    out = coerceCols numColsList (nomRenamed f) := by
  simp only [processNomina] at h
  split at h
  · injection h with h
    exact h.symm
  · exact Except.noConfusion h

theorem numColsList_ne_cedula : ∀ c ∈ numColsList, c ≠ "CEDULA" := by decide

theorem processNomina_keep {f out : Frame}
    (h : processNomina f = Except.ok out) :
    ∀ r ∈ out.rows, keepId r = true := by
  rw [processNomina_shape h]
  intro r hr
  simp only [coerceCols] at hr
  rcases List.mem_map.1 hr with ⟨r1, hr1, he1⟩
  simp only [nomRenamed, renameFrame] at hr1
  rcases List.mem_map.1 hr1 with ⟨r0, hr0, he0⟩
  have hk0 : keepId r0 = true := by
    simp only [nomFiltered, filterIdFrame] at hr0
    exact (List.mem_filter.1 hr0).2
  have hced : cellOf r "CEDULA" = cellOf r0 "CEDULA" := by
    rw [← he1, coerceFold_ne _ _ _ _ numColsList_ne_cedula, ← he0,
      cellOf_renameRow (fun q hq => (buildNomMap_avoid hq).1)
        (fun q hq => (buildNomMap_avoid hq).2)]
  rw [keepId_congr hced]
  exact hk0

theorem enrichComentarios_shape {com nomF out : Frame}
    (h : enrichComentarios com nomF = Except.ok out) :
    out.rows = ((joinRows com.rows nomF.rows ["HORAS_EXTRA_NOM", "TOTAL_PAGAR_NOM"]).map
      (fillNaZero "HORAS_EXTRA_NOM")).map (fillNaZero "TOTAL_PAGAR_NOM") := by
  simp only [enrichComentarios] at h
  split at h
  · injection h with h
    rw [← h]
  · exact Except.noConfusion h

theorem enrichComentarios_keep {com nomF out : Frame}
    (hok : enrichComentarios com nomF = Except.ok out)
    (hcom : ∀ r ∈ com.rows, keepId r = true) :
    ∀ r ∈ out.rows, keepId r = true := by
  intro r hr
  rw [enrichComentarios_shape hok] at hr
  rcases List.mem_map.1 hr with ⟨r1, hr1, he1⟩
  rcases List.mem_map.1 hr1 with ⟨r0, hr0, he0⟩
  rcases joinRows_decomp hr0 with ⟨lr, hlr, hcase⟩
  have hced : cellOf r "CEDULA" = cellOf lr "CEDULA" := by
    rw [← he1, cellOf_fillNaZero_ne (by decide), ← he0,
      cellOf_fillNaZero_ne (by decide)]
    rcases hcase with ⟨_, hre⟩ | ⟨rr, _, hre⟩ <;> rw [hre] <;>
      exact cellOf_append_exmap (by decide)
  rw [keepId_congr hced]
  exact hcom lr hlr

theorem processMonth_pos {f out : Frame} (h : processMonth f = some out) :
    ∀ r ∈ out.rows, horasPos r = true := by
  simp only [processMonth] at h
  split at h
  · exact Option.noConfusion h
  · split at h
    · exact Option.noConfusion h
    · injection h with h
      subst h
      intro r hr
      exact (List.mem_filter.1 hr).2

theorem processHorasExtras_keep (months : List Frame) :
    ∀ r ∈ (processHorasExtras months).rows, keepId r = true := by
  unfold processHorasExtras
  split
  · intro r hr
    cases hr
  · intro r hr
    exact (List.mem_filter.1 hr).2

/-! ## Further helper lemmas -/

theorem wellFormed_renameFrame (m : List (Option String × String)) {f : Frame}
    (h : wellFormed f) : wellFormed (renameFrame m f) := by
  intro r hr
  simp only [renameFrame] at hr ⊢
  rcases List.mem_map.1 hr with ⟨r0, hr0, he⟩
  rw [← he, keys_renameRow, h r0 hr0]

theorem wellFormed_filterIdFrame {f : Frame} (h : wellFormed f) :
    wellFormed (filterIdFrame f) := by
  intro r hr
  exact h r (List.mem_of_mem_filter hr)

theorem renameName_mem_target {m : List (Option String × String)}
    {c0 tgt : String} (h : renameName m c0 = tgt) :
    c0 = tgt ∨ ∃ q ∈ m, q.1 = some c0 ∧ q.2 = tgt := by
  unfold renameName at h
  cases hf : m.find? (fun q => q.1 == some c0) with
  | none =>
    rw [hf] at h
    exact Or.inl h
  | some q =>
    rw [hf] at h
    refine Or.inr ⟨q, List.mem_of_find?_eq_some hf, ?_, h⟩
    have := List.find?_some hf
    simpa using this

theorem nomNumPatterns_inj :
    ∀ e ∈ nomNumPatterns, ∀ e2 ∈ nomNumPatterns, e.1 = e2.1 → e = e2 := by decide

theorem comMap_mem {f : Frame} {q : Option String × String}
    (h : q ∈ dictInsert (dictInsert [] (find_column f.cols comIdPatterns) "CEDULA")
      (find_column f.cols comTextPatterns) "COMENTARIOS") :
    (q.1 = find_column f.cols comIdPatterns ∧ q.2 = "CEDULA")
    ∨ (q.1 = find_column f.cols comTextPatterns ∧ q.2 = "COMENTARIOS") := by
  rcases mem_dictInsert h with h1 | h1
  · rcases mem_dictInsert h1 with h2 | h2
    · cases h2
    · exact Or.inl ⟨by rw [h2], by rw [h2]⟩
  · exact Or.inr ⟨by rw [h1], by rw [h1]⟩

theorem hasCol_renameFrame_true {m : List (Option String × String)}
    {f : Frame} {c : String} (h : hasCol (renameFrame m f) c = true) :
    ∃ c0 ∈ f.cols, renameName m c0 = c := by
  unfold hasCol renameFrame at h
  have hmem : c ∈ f.cols.map (renameName m) := List.elem_iff.1 h
  rcases List.mem_map.1 hmem with ⟨c0, hc0, he⟩
  exact ⟨c0, hc0, he⟩

/-! ## Claim theorems -/

/-- Claim C1, counterexample: on a payroll sheet whose base-salary cell
holds the locale-formatted string `1.000.000`, the normalized
PayrollRecord carries `0` for the base salary — not `1000000` — because
`pd.to_numeric` does not strip thousands separators.  The claimed
locale-tolerant coercion does not happen. -/
theorem C1_counterexample :
    processNomina (Frame.mk ["CÉDULA", "SALARIO BASE"]
        [[("CÉDULA", Val.s "12345"), ("SALARIO BASE", Val.s "1.000.000")]])
      = Except.ok (Frame.mk ["CEDULA", "SALARIO_BASE"]
        [[("CEDULA", Val.s "12345"), ("SALARIO_BASE", Val.n 0)]])
    ∧ Val.n 0 ≠ Val.n 1000000 := by
  exact ⟨by rfl, by decide⟩

/-- Claim C1, amended: numeric coercion is not locale-tolerant; a
payroll base-salary cell holding `1.000.000` fails to parse and is
zero-filled, so the PayrollRecord's base salary is `0`. -/
theorem C1_amended :
    (processNomina (Frame.mk ["CÉDULA", "SALARIO BASE"]
        [[("CÉDULA", Val.s "12345"), ("SALARIO BASE", Val.s "1.000.000")]])).map
        (fun out => out.rows.map (fun r => cellOf r "SALARIO_BASE"))
      = Except.ok [Val.n 0]
    ∧ parsePyNumber "1.000.000" = none := by
  exact ⟨by rfl, by rfl⟩

/-- Claim C2, counterexample: a payroll sheet with no base-salary column
yields a PayrollRecord with the `SALARIO_BASE` attribute entirely
absent (its cell reads as missing, not as `0`): the zero-fill happens
only per-cell on columns that were resolved, and the display layer,
not the normalizer, patches absent columns with `0`. -/
theorem C2_counterexample :
    processNomina (Frame.mk ["CÉDULA", "SALARIO REAL"]
        [[("CÉDULA", Val.s "111"), ("SALARIO REAL", Val.s "2000")]])
      = Except.ok (Frame.mk ["CEDULA", "SALARIO_REAL"]
        [[("CEDULA", Val.s "111"), ("SALARIO_REAL", Val.n 2000)]])
    ∧ "SALARIO_BASE" ∈ numColsList
    ∧ "SALARIO_BASE" ∉ (["CEDULA", "SALARIO_REAL"] : List String)
    ∧ cellOf [("CEDULA", Val.s "111"), ("SALARIO_REAL", Val.n 2000)] "SALARIO_BASE"
        = Val.na := by
  exact ⟨by rfl, by decide, by decide, by rfl⟩

/-- Claim C2, amended: after payroll normalization every canonical
numeric column that is present holds a numeric value in every row
(unparseable cells having become `0`), while a canonical numeric column
whose header patterns resolved to nothing — and that is not already
present under its canonical name — is absent from the normalized table
rather than present with value `0`. -/
theorem C2_amended :
    ∀ (f out : Frame), wellFormed f → processNomina f = Except.ok out →
      (∀ c ∈ numColsList, c ∈ out.cols →
        ∀ r ∈ out.rows, isNumVal (cellOf r c) = true)
      ∧ (∀ e ∈ nomNumPatterns,
          find_column (nomFiltered f).cols e.2 = none →
          e.1 ∉ (nomFiltered f).cols → e.1 ∉ out.cols) := by
  intro f out hwf hok
  have hshape := processNomina_shape hok
  subst hshape
  constructor
  · intro c hc hcols r hr
    simp only [coerceCols] at hr hcols
    rcases List.mem_map.1 hr with ⟨r1, hr1, he1⟩
    have hwf2 : wellFormed (nomRenamed f) := by
      unfold nomRenamed
      apply wellFormed_renameFrame
      unfold nomFiltered
      apply wellFormed_filterIdFrame
      unfold nomIdRenamed
      exact wellFormed_renameFrame _ hwf
    have hkey : c ∈ r1.map Prod.fst := by
      rw [hwf2 r1 hr1]
      exact hcols
    have hcont : (nomRenamed f).cols.contains c = true := List.elem_iff.2 hcols
    rw [← he1]
    exact coerceFold_num _ _ _ _ hc hcont hkey
  · intro e he hfind hnotin hmem
    simp only [coerceCols, nomRenamed, renameFrame] at hmem
    rcases List.mem_map.1 hmem with ⟨c0, hc0, hre⟩
    rcases renameName_mem_target hre with h1 | ⟨q, hq, hq1, hq2⟩
    · exact hnotin (h1 ▸ hc0)
    · rcases buildNomMap_mem hq with ⟨e2, he2, hqe⟩
      have he21 : e2.1 = e.1 := by
        rw [hqe] at hq2
        exact hq2
      have he2e : e2 = e := nomNumPatterns_inj e2 he2 e he he21
      have hqfind : q.1 = find_column (nomFiltered f).cols e.2 := by
        rw [hqe, he2e]
      rw [hq1, hfind] at hqfind
      exact Option.noConfusion hqfind

/-- Claim C8: numeric coercion is total and best-effort: a missing cell
coerces to `0`, a string cell that does not parse as a number (blank or
non-numeric text) coerces to exactly `0`, never an error, and every
coerced cell is numeric, so ingestion continues. -/
theorem C8_coercion_best_effort :
    coerceVal Val.na = Val.n 0
    ∧ (∀ t, parsePyNumber t = none → coerceVal (Val.s t) = Val.n 0)
    ∧ parsePyNumber "" = none
    ∧ (∀ v, isNumVal (coerceVal v) = true) := by
  refine ⟨rfl, ?_, rfl, coerceVal_isNum⟩
  intro t ht
  simp [coerceVal, ht]

/-- Claim C8, witness at the non-numeric cell `"texto"`. -/
theorem C8_witness :
    parsePyNumber "texto" = none ∧ coerceVal (Val.s "texto") = Val.n 0 :=
  ⟨by rfl, C8_coercion_best_effort.2.1 "texto" (by rfl)⟩

/-- Claim C5: reshaping a monthly sheet with identity and name columns
followed by two classification columns, rows `(A, 5, 0)` and
`(B, 0, 3)` under the month label `ENERO 2025`, yields exactly the two
rows `(A, ENERO 2025, first classification, 5)` and
`(B, ENERO 2025, second classification, 3)`; in general every row of a
reshaped monthly sheet carries strictly positive hours, so zero-hour
(and unparseable) cells produce no row. -/
theorem C5_reshape :
    processMonth (addMes (Frame.mk
        ["CÉDULA", "NOMBRE", "HORA EXTRA DIURNA", "RECARGO NOCTURNO"]
        [[("CÉDULA", Val.s "A"), ("NOMBRE", Val.s "Ana"),
          ("HORA EXTRA DIURNA", Val.s "5"), ("RECARGO NOCTURNO", Val.s "0")],
         [("CÉDULA", Val.s "B"), ("NOMBRE", Val.s "Beto"),
          ("HORA EXTRA DIURNA", Val.s "0"), ("RECARGO NOCTURNO", Val.s "3")]])
        "ENERO 2025")
      = some (Frame.mk ["CEDULA", "MES", "CLASIFICACION", "HORAS"]
        [[("CEDULA", Val.s "A"), ("MES", Val.s "ENERO 2025"),
          ("CLASIFICACION", Val.s "HORA EXTRA DIURNA"), ("HORAS", Val.n 5)],
         [("CEDULA", Val.s "B"), ("MES", Val.s "ENERO 2025"),
          ("CLASIFICACION", Val.s "RECARGO NOCTURNO"), ("HORAS", Val.n 3)]])
    ∧ (∀ (f out : Frame), processMonth f = some out →
        ∀ r ∈ out.rows, horasPos r = true) := by
  constructor
  · rfl
  · intro f out h
    exact processMonth_pos h

/-- Claim C5, witness: the positive-hours invariant applied to the
first row of the reshaped example sheet. -/
theorem C5_witness :
    horasPos [("CEDULA", Val.s "A"), ("MES", Val.s "ENERO 2025"),
      ("CLASIFICACION", Val.s "HORA EXTRA DIURNA"), ("HORAS", Val.n 5)] = true :=
  C5_reshape.2 _ _ C5_reshape.1 _ (List.mem_cons_self _ _)

/-- Claim C4: in the pivot of overtime rows by name and classification
with summed hours, every row's total-column cell equals the sum of that
row's per-classification cells, the grand-total cell equals the sum over
all row totals, and it equals the sum of all entries' hours — for any
collection of rows, regardless of grouping order. -/
theorem C4_pivot_totals :
    ∀ (rows : List Row) (nm : Val),
      pivotRowTotal rows nm = ((pivotClasses rows).map (pivotCell rows nm)).sum
      ∧ pivotGrandTotal rows = ((pivotNames rows).map (pivotRowTotal rows)).sum
      ∧ pivotGrandTotal rows = sumHoras rows := by
  intro rows nm
  refine ⟨?_, ?_, rfl⟩
  · simp only [pivotRowTotal, pivotCell, pivotClasses, sumHoras]
    refine (sum_fiberwise horasOf classOf ((rows.map classOf).dedup)
      (rows.filter (fun r => nameOf r == nm)) (List.nodup_dedup _) ?_).symm
    intro x hx
    exact List.mem_dedup.2 (List.mem_map_of_mem classOf (List.mem_of_mem_filter hx))
  · simp only [pivotGrandTotal, pivotRowTotal, pivotNames, sumHoras]
    refine (sum_fiberwise horasOf nameOf ((rows.map nameOf).dedup) rows
      (List.nodup_dedup _) ?_).symm
    intro x hx
    exact List.mem_dedup.2 (List.mem_map_of_mem nameOf hx)

/-- Claim C6: whenever a required role sheet is missing — a sheet counts
as present exactly when its trimmed, upper-cased name equals the
canonical name — classification returns an error (so `load_data`
returns no model) whose message names the missing canonical sheet. -/
theorem C6_missing_sheet :
    ∀ (sheets : List String) (k c : String),
      firstMissing sheets requiredSheets = some (k, c) →
      findSheet sheets c = none
      ∧ classifySheets sheets = Except.error (missingMsg k c)
      ∧ strContains (missingMsg k c) c = true := by
  intro sheets k c h
  have hres := classifyGo_error sheets requiredSheets k c h
  refine ⟨hres.1, hres.2, ?_⟩
  unfold missingMsg
  exact strContains_sandwich _ _ _

/-- Claim C6, witness: a workbook whose sheets are `" informacion "`
(matched by trimming and upper-casing) and `"COMENTARIOS"` lacks the
NOMINA sheet, and classification fails naming it. -/
theorem C6_witness :
    findSheet [" informacion ", "COMENTARIOS"] "NOMINA" = none
    ∧ classifySheets [" informacion ", "COMENTARIOS"]
        = Except.error (missingMsg "hoja 4" "NOMINA")
    ∧ strContains (missingMsg "hoja 4" "NOMINA") "NOMINA" = true :=
  C6_missing_sheet [" informacion ", "COMENTARIOS"] "hoja 4" "NOMINA" (by rfl)

/-- Claim C9: rows whose identity key is missing or empty are absent
from every normalized output: the employees table, the enriched
comments table, the payroll table, and the concatenated overtime table
contain only rows with a non-missing, non-empty identity key. -/
theorem C9_empty_ids_filtered :
    (∀ (f out : Frame), processEmpleados f = Except.ok out →
      ∀ r ∈ out.rows, idOk r)
    ∧ (∀ (cf nf c out : Frame), processComentarios cf = Except.ok c →
        enrichComentarios c nf = Except.ok out → ∀ r ∈ out.rows, idOk r)
    ∧ (∀ (f out : Frame), processNomina f = Except.ok out →
        ∀ r ∈ out.rows, idOk r)
    ∧ (∀ (months : List Frame), ∀ r ∈ (processHorasExtras months).rows, idOk r) := by
  refine ⟨?_, ?_, ?_, ?_⟩
  · intro f out h r hr
    exact keepId_spec (processEmpleados_keep h r hr)
  · intro cf nf c out h1 h2 r hr
    exact keepId_spec (enrichComentarios_keep h2 (processComentarios_keep h1) r hr)
  · intro f out h r hr
    exact keepId_spec (processNomina_keep h r hr)
  · intro months r hr
    exact keepId_spec (processHorasExtras_keep months r hr)

/-- Claim C9, witness: the invariant applied to a row of the overtime
table built from the example monthly sheet. -/
theorem C9_witness :
    idOk [("CEDULA", Val.s "A"), ("MES", Val.s "ENERO 2025"),
      ("CLASIFICACION", Val.s "HORA EXTRA DIURNA"), ("HORAS", Val.n 5)] :=
  C9_empty_ids_filtered.2.2.2
    [addMes (Frame.mk
        ["CÉDULA", "NOMBRE", "HORA EXTRA DIURNA", "RECARGO NOCTURNO"]
        [[("CÉDULA", Val.s "A"), ("NOMBRE", Val.s "Ana"),
          ("HORA EXTRA DIURNA", Val.s "5"), ("RECARGO NOCTURNO", Val.s "0")],
         [("CÉDULA", Val.s "B"), ("NOMBRE", Val.s "Beto"),
          ("HORA EXTRA DIURNA", Val.s "0"), ("RECARGO NOCTURNO", Val.s "3")]])
        "ENERO 2025"]
    _ (by decide)

/-- Claim C10: the comments-payroll enrichment emits one enriched row
per payroll row matching a comment's identity key (and one `NaN`-filled
row when none matches), so the enriched table has exactly the sum over
comments of `max(matches, 1)` rows — never fewer rows than the comments
table, and more as soon as several payroll rows share a matched key. -/
theorem C10_enrichment_row_count :
    ∀ (com nomF out : Frame), enrichComentarios com nomF = Except.ok out →
      out.rows.length
          = (com.rows.map
              (fun lr => max (matchRows nomF.rows (cellOf lr "CEDULA")).length 1)).sum
      ∧ com.rows.length ≤ out.rows.length := by
  intro com nomF out h
  have hlen : out.rows.length
      = (joinRows com.rows nomF.rows ["HORAS_EXTRA_NOM", "TOTAL_PAGAR_NOM"]).length := by
    rw [enrichComentarios_shape h]
    simp [List.length_map]
  constructor
  · rw [hlen, joinRows_length]
  · rw [hlen, joinRows_length]
    exact length_le_sum_map _ _ (fun x => le_max_right _ _)

/-- Claim C10, witness: two comment rows against a payroll table whose
key `1` appears twice produce three enriched rows. -/
theorem C10_witness :
    (Frame.mk ["CEDULA", "COMENTARIOS", "HORAS_EXTRA_NOM", "TOTAL_PAGAR_NOM"]
        [[("CEDULA", Val.s "1"), ("COMENTARIOS", Val.s "a"),
          ("HORAS_EXTRA_NOM", Val.n 1), ("TOTAL_PAGAR_NOM", Val.n 10)],
         [("CEDULA", Val.s "1"), ("COMENTARIOS", Val.s "a"),
          ("HORAS_EXTRA_NOM", Val.n 2), ("TOTAL_PAGAR_NOM", Val.n 20)],
         [("CEDULA", Val.s "2"), ("COMENTARIOS", Val.s "b"),
          ("HORAS_EXTRA_NOM", Val.n 0), ("TOTAL_PAGAR_NOM", Val.n 0)]]).rows.length
      = ((Frame.mk ["CEDULA", "COMENTARIOS"]
          [[("CEDULA", Val.s "1"), ("COMENTARIOS", Val.s "a")],
           [("CEDULA", Val.s "2"), ("COMENTARIOS", Val.s "b")]]).rows.map
          (fun lr => max (matchRows (Frame.mk
            ["CEDULA", "HORAS_EXTRA_NOM", "TOTAL_PAGAR_NOM"]
            [[("CEDULA", Val.s "1"), ("HORAS_EXTRA_NOM", Val.n 1),
              ("TOTAL_PAGAR_NOM", Val.n 10)],
             [("CEDULA", Val.s "1"), ("HORAS_EXTRA_NOM", Val.n 2),
              ("TOTAL_PAGAR_NOM", Val.n 20)]]).rows (cellOf lr "CEDULA")).length 1)).sum
    ∧ (Frame.mk ["CEDULA", "COMENTARIOS"]
          [[("CEDULA", Val.s "1"), ("COMENTARIOS", Val.s "a")],
           [("CEDULA", Val.s "2"), ("COMENTARIOS", Val.s "b")]]).rows.length
        ≤ (Frame.mk ["CEDULA", "COMENTARIOS", "HORAS_EXTRA_NOM", "TOTAL_PAGAR_NOM"]
        [[("CEDULA", Val.s "1"), ("COMENTARIOS", Val.s "a"),
          ("HORAS_EXTRA_NOM", Val.n 1), ("TOTAL_PAGAR_NOM", Val.n 10)],
         [("CEDULA", Val.s "1"), ("COMENTARIOS", Val.s "a"),
          ("HORAS_EXTRA_NOM", Val.n 2), ("TOTAL_PAGAR_NOM", Val.n 20)],
         [("CEDULA", Val.s "2"), ("COMENTARIOS", Val.s "b"),
          ("HORAS_EXTRA_NOM", Val.n 0), ("TOTAL_PAGAR_NOM", Val.n 0)]]).rows.length :=
  C10_enrichment_row_count
    (Frame.mk ["CEDULA", "COMENTARIOS"]
      [[("CEDULA", Val.s "1"), ("COMENTARIOS", Val.s "a")],
       [("CEDULA", Val.s "2"), ("COMENTARIOS", Val.s "b")]])
    (Frame.mk ["CEDULA", "HORAS_EXTRA_NOM", "TOTAL_PAGAR_NOM"]
      [[("CEDULA", Val.s "1"), ("HORAS_EXTRA_NOM", Val.n 1),
        ("TOTAL_PAGAR_NOM", Val.n 10)],
       [("CEDULA", Val.s "1"), ("HORAS_EXTRA_NOM", Val.n 2),
        ("TOTAL_PAGAR_NOM", Val.n 20)]])
    (Frame.mk ["CEDULA", "COMENTARIOS", "HORAS_EXTRA_NOM", "TOTAL_PAGAR_NOM"]
      [[("CEDULA", Val.s "1"), ("COMENTARIOS", Val.s "a"),
        ("HORAS_EXTRA_NOM", Val.n 1), ("TOTAL_PAGAR_NOM", Val.n 10)],
       [("CEDULA", Val.s "1"), ("COMENTARIOS", Val.s "a"),
        ("HORAS_EXTRA_NOM", Val.n 2), ("TOTAL_PAGAR_NOM", Val.n 20)],
       [("CEDULA", Val.s "2"), ("COMENTARIOS", Val.s "b"),
        ("HORAS_EXTRA_NOM", Val.n 0), ("TOTAL_PAGAR_NOM", Val.n 0)]])
    (by rfl)

/-- Claim C3, counterexample: a comment row whose identity key `999`
matches no employee keeps a missing (`NaN`) name after the join of
`show_comentarios`, and the displayed name at line 282 is that missing
value — not the raw identity key `999` — because `item.get` only
applies its default when the key is absent, and no fallback fill is
applied to the comments join. -/
theorem C3_counterexample :
    comentariosConNombre
        [[("CEDULA", Val.s "999"), ("COMENTARIOS", Val.s "hola")]]
        [[("CEDULA", Val.s "1"), ("NOMBRE", Val.s "Ana"), ("TELEFONO", Val.s "5")]]
      = [[("CEDULA", Val.s "999"), ("COMENTARIOS", Val.s "hola"),
          ("NOMBRE", Val.na), ("TELEFONO", Val.na)]]
    ∧ displayedCommentName
        [("CEDULA", Val.s "999"), ("COMENTARIOS", Val.s "hola"),
          ("NOMBRE", Val.na), ("TELEFONO", Val.na)] = Val.na
    ∧ Val.na ≠ Val.s "999" := by
  exact ⟨by rfl, by rfl, by decide⟩

/-- Claim C3, amended: the fallback-join rule holds for overtime rows:
in `show_horas_extras` every overtime row whose identity key matches no
employee displays the raw identity key as its name, which is neither
missing nor blank; comment rows, by contrast, receive no such fallback
(see the counterexample). -/
theorem C3_amended :
    ∀ (he emp : List Row),
      (∀ lr ∈ he, ∀ p ∈ lr, p.1 ≠ "NOMBRE") →
      (∀ lr ∈ he, keepId lr = true) →
      ∀ r ∈ horasConNombre he emp,
        matchRows emp (cellOf r "CEDULA") = [] →
        cellOf r "NOMBRE" = cellOf r "CEDULA"
        ∧ cellOf r "NOMBRE" ≠ Val.na ∧ cellOf r "NOMBRE" ≠ Val.s "" := by
  intro he emp hno hid r hr hm
  unfold horasConNombre at hr
  rcases List.mem_map.1 hr with ⟨jr, hjr, hre⟩
  rcases joinRows_decomp hjr with ⟨lr, hlr, hcase⟩
  have hjrced : cellOf jr "CEDULA" = cellOf lr "CEDULA" := by
    rcases hcase with ⟨_, hje⟩ | ⟨rr, _, hje⟩ <;> rw [hje] <;>
      exact cellOf_append_exmap (by decide)
  have hrced : cellOf r "CEDULA" = cellOf lr "CEDULA" := by
    rw [← hre, cellOf_fillNaWith_ne (by decide), hjrced]
  rw [hrced] at hm
  rcases hcase with ⟨hmz, hje⟩ | ⟨rr, hrr, hje⟩
  · have hnom : cellOf r "NOMBRE" = cellOf lr "CEDULA" := by
      rw [← hre, hjrced, hje]
      simp only [List.map_cons, List.map_nil]
      exact cellOf_fillNaWith_hit (hno lr hlr)
    have hok := keepId_spec (hid lr hlr)
    refine ⟨?_, ?_, ?_⟩
    · rw [hnom, hrced]
    · rw [hnom]
      exact hok.1
    · rw [hnom]
      exact hok.2
  · rw [hm] at hrr
    cases hrr

/-- Claim C3, witness: an overtime row with key `77` and no matching
employee displays `77` as its name. -/
theorem C3_witness :
    cellOf [("CEDULA", Val.s "77"), ("MES", Val.s "ENERO 2025"),
        ("CLASIFICACION", Val.s "RECARGO"), ("HORAS", Val.n 2),
        ("NOMBRE", Val.s "77")] "NOMBRE"
      = cellOf [("CEDULA", Val.s "77"), ("MES", Val.s "ENERO 2025"),
        ("CLASIFICACION", Val.s "RECARGO"), ("HORAS", Val.n 2),
        ("NOMBRE", Val.s "77")] "CEDULA"
    ∧ cellOf [("CEDULA", Val.s "77"), ("MES", Val.s "ENERO 2025"),
        ("CLASIFICACION", Val.s "RECARGO"), ("HORAS", Val.n 2),
        ("NOMBRE", Val.s "77")] "NOMBRE" ≠ Val.na
    ∧ cellOf [("CEDULA", Val.s "77"), ("MES", Val.s "ENERO 2025"),
        ("CLASIFICACION", Val.s "RECARGO"), ("HORAS", Val.n 2),
        ("NOMBRE", Val.s "77")] "NOMBRE" ≠ Val.s "" :=
  C3_amended
    [[("CEDULA", Val.s "77"), ("MES", Val.s "ENERO 2025"),
      ("CLASIFICACION", Val.s "RECARGO"), ("HORAS", Val.n 2)]]
    [[("CEDULA", Val.s "1"), ("NOMBRE", Val.s "Ana")]]
    (by decide) (by decide) _ (by decide) (by rfl)

/-- Claim C7, counterexample: on a comments sheet whose columns are
literally `CEDULA` and `OBSERVACIONES`, the identity column cannot be
resolved (neither pattern `CÉDULA` nor `ID` matches `CEDULA`), yet
ingestion does not abort: processing succeeds because the literal
`CEDULA` column satisfies the later accesses. -/
theorem C7_counterexample :
    find_column ["CEDULA", "OBSERVACIONES"] comIdPatterns = none
    ∧ processComentarios (Frame.mk ["CEDULA", "OBSERVACIONES"]
        [[("CEDULA", Val.s "5"), ("OBSERVACIONES", Val.s "ok")]])
      = Except.ok (Frame.mk ["CEDULA", "COMENTARIOS"]
        [[("CEDULA", Val.s "5"), ("COMENTARIOS", Val.s "ok")]]) := by
  exact ⟨by rfl, by rfl⟩

/-- Claim C7, amended: processing the comments sheet aborts with a
structured failure (an error value carrying a human-readable reason,
which `load_data` turns into no model) whenever the comment-text column
cannot be resolved, or the identity column cannot be resolved and no
column literally named `CEDULA` exists; a literal `CEDULA` column
silently compensates for an unresolved identity column. -/
theorem C7_amended :
    ∀ f : Frame,
      ((find_column f.cols comIdPatterns = none ∧ "CEDULA" ∉ f.cols)
        ∨ find_column f.cols comTextPatterns = none) →
      (processComentarios f).isOk = false := by
  intro f h
  simp only [processComentarios]
  rcases h with ⟨hid, hced⟩ | hcom
  · have hb : hasCol (renameFrame
        (dictInsert (dictInsert [] (find_column f.cols comIdPatterns) "CEDULA")
          (find_column f.cols comTextPatterns) "COMENTARIOS") f) "CEDULA" = false := by
      cases hx : hasCol (renameFrame
          (dictInsert (dictInsert [] (find_column f.cols comIdPatterns) "CEDULA")
            (find_column f.cols comTextPatterns) "COMENTARIOS") f) "CEDULA" with
      | false => rfl
      | true =>
        exfalso
        rcases hasCol_renameFrame_true hx with ⟨c0, hc0, hre⟩
        rcases renameName_mem_target hre with h1 | ⟨q, hq, hq1, hq2⟩
        · exact hced (h1 ▸ hc0)
        · rcases comMap_mem hq with ⟨ha, _⟩ | ⟨_, hb2⟩
          · rw [hid] at ha
            rw [hq1] at ha
            exact Option.noConfusion ha
          · exact absurd (hq2.symm.trans hb2) (by decide)
    rw [hb]
    rfl
  · by_cases hcase : hasCol (renameFrame
        (dictInsert (dictInsert [] (find_column f.cols comIdPatterns) "CEDULA")
          (find_column f.cols comTextPatterns) "COMENTARIOS") f) "CEDULA" = true
    · have hsel : selectFrame ["CEDULA", "COMENTARIOS"]
          (filterIdFrame (renameFrame
            (dictInsert (dictInsert [] (find_column f.cols comIdPatterns) "CEDULA")
              (find_column f.cols comTextPatterns) "COMENTARIOS") f)) = none := by
        have hall : (["CEDULA", "COMENTARIOS"].all
            (fun c => (filterIdFrame (renameFrame
              (dictInsert (dictInsert [] (find_column f.cols comIdPatterns) "CEDULA")
                (find_column f.cols comTextPatterns) "COMENTARIOS") f)).cols.contains c))
            = false := by
          cases hx : (["CEDULA", "COMENTARIOS"].all
              (fun c => (filterIdFrame (renameFrame
                (dictInsert (dictInsert [] (find_column f.cols comIdPatterns) "CEDULA")
                  (find_column f.cols comTextPatterns) "COMENTARIOS") f)).cols.contains c)) with
          | false => rfl
          | true =>
            exfalso
            rw [List.all_eq_true] at hx
            have hcm := hx "COMENTARIOS" (by simp)
            have hmem : "COMENTARIOS" ∈ (renameFrame
                (dictInsert (dictInsert [] (find_column f.cols comIdPatterns) "CEDULA")
                  (find_column f.cols comTextPatterns) "COMENTARIOS") f).cols := by
              simp only [filterIdFrame] at hcm
              exact List.elem_iff.1 hcm
            simp only [renameFrame] at hmem
            rcases List.mem_map.1 hmem with ⟨c0, hc0, hre⟩
            rcases renameName_mem_target hre with h1 | ⟨q, hq, hq1, hq2⟩
            · have hfc := find_column_none hcom c0 hc0
              rw [h1] at hfc
              rw [show (comTextPatterns.any
                  fun p => strContains (pyUpper "COMENTARIOS") p) = true from by decide]
                at hfc
              exact Bool.noConfusion hfc
            · rcases comMap_mem hq with ⟨_, hb2⟩ | ⟨ha, _⟩
              · exact absurd (hb2.symm.trans hq2) (by decide)
              · rw [hcom] at ha
                rw [hq1] at ha
                exact Option.noConfusion ha
        unfold selectFrame
        rw [hall]
        rfl
      simp [hcase, hsel, Except.isOk, Except.toBool]
    · have hb2 : hasCol (renameFrame
          (dictInsert (dictInsert [] (find_column f.cols comIdPatterns) "CEDULA")
            (find_column f.cols comTextPatterns) "COMENTARIOS") f) "CEDULA" = false := by
        cases hx : hasCol (renameFrame
            (dictInsert (dictInsert [] (find_column f.cols comIdPatterns) "CEDULA")
              (find_column f.cols comTextPatterns) "COMENTARIOS") f) "CEDULA" with
        | false => rfl
        | true => exact absurd hx hcase
      rw [hb2]
      rfl

/-- Claim C7, witness: a comments sheet whose single column matches no
identity pattern and is not named `CEDULA` makes processing fail. -/
theorem C7_witness :
    (processComentarios (Frame.mk ["X"] [])).isOk = false :=
  C7_amended (Frame.mk ["X"] []) (Or.inl ⟨by rfl, by decide⟩)

/-- Claim C2, witness: the resolved column `SALARIO REAL` yields a
numeric `SALARIO_REAL` cell in the normalized payroll row. -/
theorem C2_witness :
    isNumVal (cellOf [("CEDULA", Val.s "111"), ("SALARIO_REAL", Val.n 2000)]
      "SALARIO_REAL") = true :=
  (C2_amended (Frame.mk ["CÉDULA", "SALARIO REAL"]
      [[("CÉDULA", Val.s "111"), ("SALARIO REAL", Val.s "2000")]])
    (Frame.mk ["CEDULA", "SALARIO_REAL"]
      [[("CEDULA", Val.s "111"), ("SALARIO_REAL", Val.n 2000)]])
    (by unfold wellFormed; decide) (by rfl)).1 "SALARIO_REAL" (by decide)
    (by decide) [("CEDULA", Val.s "111"), ("SALARIO_REAL", Val.n 2000)] (by decide)
